import Mathlib

/- Verification of the national-park-sites tool (proj2_nps.py): a shallow
embedding of its cache, fetch, parsing, rendering and interactive-session
logic, together with theorems settling the specified properties.

Python dictionaries are embedded as insertion-ordered association lists
over String keys.  External collaborators (the HTTP layer, the
BeautifulSoup extraction adapters, the json codec) appear as function
parameters or as explicit Lean models noted at their definitions. -/

namespace NPS

/-- A Python dict with string keys, as an insertion-ordered association list. -/
abbrev Dict (α : Type) : Type := List (String × α)

/-- Key lookup, mirroring Python dict membership and subscript access:
the first (and in a real dict, only) binding for the key. -/
def dlookup {α : Type} : Dict α → String → Option α
  | [], _ => none
  | (k, v) :: d, key => if k = key then some v else dlookup d key

/-- Assignment d[k] = v on a Python dict: replace the value in place when the
key is present (keeping its position), otherwise append the new binding. -/
def dupdate {α : Type} : Dict α → String → α → Dict α
  | [], k, v => [(k, v)]
  | (k0, v0) :: d, k, v =>
      if k0 = k then (k0, v) :: d else (k0, v0) :: dupdate d k v

/- JSON codec for flat string-to-string objects, modelling the json library
calls json.dumps (in save_cache) and json.loads (in load_cache) on cache
dictionaries.  The serializer escapes the quote, the backslash and control
characters (the latter as lowercase \u00XX, other characters verbatim); the
parser accepts the standard string escapes and optional whitespace between
tokens.  Values are strings only, matching the cache document schema. -/

/-- Hex digit character for a value below 16, lowercase as json.dumps emits. -/
def hexDigitChar (n : Nat) : Char :=
  if n < 10 then Char.ofNat (48 + n) else Char.ofNat (87 + n)

/-- Numeric value of a hex digit character, if it is one. -/
def hexVal (c : Char) : Option Nat :=
  if 48 ≤ c.toNat ∧ c.toNat ≤ 57 then some (c.toNat - 48)
  else if 97 ≤ c.toNat ∧ c.toNat ≤ 102 then some (c.toNat - 97 + 10)
  else if 65 ≤ c.toNat ∧ c.toNat ≤ 70 then some (c.toNat - 65 + 10)
  else none

/-- Escape one character of a JSON string literal. -/
def escChar (c : Char) : List Char :=
  if c = '"' then ['\\', '"']
  else if c = '\\' then ['\\', '\\']
  else if c.toNat < 32 then
    ['\\', 'u', '0', '0', hexDigitChar (c.toNat / 16), hexDigitChar (c.toNat % 16)]
  else [c]

/-- Escape a whole string (as a character list). -/
def escape : List Char → List Char
  | [] => []
  | c :: cs => escChar c ++ escape cs

/-- Serialized characters of one key-value member: "key": "value". -/
def entryChars (k v : String) : List Char :=
  '"' :: escape k.data ++ '"' :: ':' :: ' ' :: '"' :: escape v.data ++ ['"']

/-- Members joined by the default json.dumps separator, a comma and a space. -/
def joinEntries : Dict String → List Char
  | [] => []
  | [kv] => entryChars kv.1 kv.2
  | kv :: kv2 :: rest => entryChars kv.1 kv.2 ++ ',' :: ' ' :: joinEntries (kv2 :: rest)

/-- Model of json.dumps on a flat string-to-string dict. -/
def dumps (m : Dict String) : String :=
  String.mk ('\x7b' :: joinEntries m ++ ['\x7d'])

/-- JSON insignificant whitespace. -/
def isJsonWs (c : Char) : Bool :=
  c = ' ' || c = '\t' || c = '\n' || c = '\r'

/-- Drop leading JSON whitespace. -/
def skipWs : List Char → List Char
  | [] => []
  | c :: rest => if isJsonWs c then skipWs rest else c :: rest

/-- Prepend a character to the first component of a parse result. -/
def mapConsFst (c : Char) : Option (List Char × List Char) → Option (List Char × List Char)
  | none => none
  | some (s, r) => some (c :: s, r)

/-- Parse the body of a JSON string literal after the opening quote, up to and
including the closing quote, fuelled by an upper bound on the output length. -/
def parseStringBody : Nat → List Char → Option (List Char × List Char)
  | 0, _ => none
  | _ + 1, [] => none
  | fuel + 1, c :: rest =>
    if c = '"' then some ([], rest)
    else if c = '\\' then
      match rest with
      | [] => none
      | e :: rest2 =>
        if e = '"' then mapConsFst '"' (parseStringBody fuel rest2)
        else if e = '\\' then mapConsFst '\\' (parseStringBody fuel rest2)
        else if e = '/' then mapConsFst '/' (parseStringBody fuel rest2)
        else if e = 'n' then mapConsFst '\n' (parseStringBody fuel rest2)
        else if e = 't' then mapConsFst '\t' (parseStringBody fuel rest2)
        else if e = 'r' then mapConsFst '\r' (parseStringBody fuel rest2)
        else if e = 'b' then mapConsFst (Char.ofNat 8) (parseStringBody fuel rest2)
        else if e = 'f' then mapConsFst (Char.ofNat 12) (parseStringBody fuel rest2)
        else if e = 'u' then
          match rest2 with
          | h1 :: h2 :: h3 :: h4 :: rest3 =>
            match hexVal h1, hexVal h2, hexVal h3, hexVal h4 with
            | some a, some b, some c2, some d =>
                mapConsFst (Char.ofNat (((a * 16 + b) * 16 + c2) * 16 + d))
                  (parseStringBody fuel rest3)
            | _, _, _, _ => none
          | _ => none
        else none
    else mapConsFst c (parseStringBody fuel rest)

/-- Parse a JSON string literal, returning the decoded string and the rest. -/
def parseJString (fuel : Nat) (l : List Char) : Option (String × List Char) :=
  match l with
  | '"' :: rest =>
    match parseStringBody fuel rest with
    | some (cs, r) => some (String.mk cs, r)
    | none => none
  | _ => none

/-- Parse one "key": "value" member, whitespace tolerated around tokens. -/
def parseEntry (fuel : Nat) (l : List Char) : Option ((String × String) × List Char) :=
  match parseJString fuel (skipWs l) with
  | none => none
  | some (k, r1) =>
    match skipWs r1 with
    | ':' :: r2 =>
      match parseJString fuel (skipWs r2) with
      | none => none
      | some (v, r3) => some ((k, v), r3)
    | _ => none

/-- Parse a nonempty comma-separated member list and the closing brace. -/
def parseMembers : Nat → List Char → Option (Dict String × List Char)
  | 0, _ => none
  | fuel + 1, l =>
    match parseEntry (fuel + 1) l with
    | none => none
    | some (kv, r) =>
      match skipWs r with
      | ',' :: r2 =>
        match parseMembers fuel r2 with
        | some (m, rf) => some (kv :: m, rf)
        | none => none
      | '\x7d' :: r2 => some ([kv], r2)
      | _ => none

/-- Skip whitespace, then demand the given character. -/
def expectChar (c : Char) (l : List Char) : Option (List Char) :=
  match skipWs l with
  | x :: r => if x = c then some r else none
  | _ => none

/-- Model of json.loads restricted to flat string-to-string objects: any
other document shape is a parse failure (returns none). -/
def loads (s : String) : Option (Dict String) :=
  match expectChar '\x7b' s.data with
  | none => none
  | some r =>
    match expectChar '\x7d' r with
    | some r2 => if (skipWs r2).isEmpty then some [] else none
    | none =>
      match parseMembers (r.length + 1) r with
      | some (m, rf) => if (skipWs rf).isEmpty then some m else none
      | none => none

/-- Fuel accounting for the member parser: one unit per member plus the
lengths of its key and value. -/
def sizeL : Dict String → Nat
  | [] => 0
  | kv :: m => kv.1.data.length + kv.2.data.length + 1 + sizeL m

/-- The cache file state: none models a missing or unreadable file, some s a
file whose full text reads as s (source lines 189-193). -/
def load_cache (file : Option String) : Dict String :=
  match file with
  | none => []
  | some s =>
    match loads s with
    | some cache => cache
    | none => []

/-- Content written to the cache file by save_cache (source lines 215-218):
the whole mapping serialized with json.dumps. -/
def save_cache (cache : Dict String) : String :=
  dumps cache

/-- Observable side effects of the operations: console output, an outbound
HTTP GET, and a write of the given full text to the cache file. -/
inductive Effect : Type where
  | printLine : String → Effect
  | httpGet : String → Effect
  | fileWrite : String → Effect
deriving DecidableEq

/-- Cache-backed fetch (source lines 220-246).  net is the network oracle
giving the response body text a live GET of a URL would produce.  Returns
the body, the updated cache dict, and the effect trace in order. -/
def make_url_request_using_cache (net : String → String) (url : String)
    (cache : Dict String) : String × Dict String × List Effect :=
  match dlookup cache url with
  | some body => (body, cache, [Effect.printLine "Using cache"])
  | none =>
    let body := net url
    let cache2 := dupdate cache url body
    (body, cache2,
      [Effect.printLine "Fetching", Effect.httpGet url,
       Effect.fileWrite (save_cache cache2)])

/-- A national site record (class NationalSite, source lines 10-36). -/
structure NationalSite : Type where
  category : String
  name : String
  address : String
  zipcode : String
  phone : String
deriving DecidableEq

/-- The info method (source line 39). -/
def NationalSite.info (s : NationalSite) : String :=
  s.name ++ " (" ++ s.category ++ "): " ++ s.address ++ " " ++ s.zipcode

/-- Text fields extracted from a site detail page by the BeautifulSoup
adapter in get_site_instance (source lines 86-93): each is the result of
text.strip() on a found element, hence always a string. -/
structure ParsedDetail : Type where
  name : String
  category : String
  city : String
  state : String
  zipcode : String
  phone : String

/-- Field defaulting and construction part of get_site_instance (source
lines 94-118).  The checks comparing city, state, zipcode and phone against
None always succeed, because the parsed values are strings, so the address
is the concatenation of city and state in every case, and zipcode and phone
pass through unchanged. -/
def siteOfParsed (d : ParsedDetail) : NationalSite :=
  let category := if d.category ≠ "" then d.category else "no category"
  let address := d.city ++ ", " ++ d.state
  { category := category, name := d.name, address := address,
    zipcode := d.zipcode, phone := d.phone }

/-- Model of the Python str.lower method applied to state names and menu
input: per-character case folding. -/
def pyLower (s : String) : String :=
  String.mk (s.data.map Char.toLower)

/-- Base URL prefixed to relative links (source lines 56, 66, 141-143). -/
def base_url : String := "https://www.nps.gov"

/-- The state-dict accumulation loop of build_state_url_dict (source lines
61-69), over the (visible text, href) pairs of the parsed state links.  Note
the guard tests membership of the raw name while keys are lower-cased. -/
def state_dict_loop : Dict String → List (String × String) → Dict String
  | acc, [] => acc
  | acc, (state_name, state_link) :: rest =>
      let state_details := base_url ++ state_link
      let acc2 :=
        if (dlookup acc state_name).isNone then
          dupdate acc (pyLower state_name) state_details
        else acc
      state_dict_loop acc2 rest

/-- Mapping from parsed state links to the state dict (source lines 61-69). -/
def build_state_url_dict (links : List (String × String)) : Dict String :=
  state_dict_loop [] links

/-- Modelled from the spec: the state-index construction as the spec words
it, where the duplicate guard tests the lower-cased key itself, so the first
occurrence of a state name always wins.  For comparison with
build_state_url_dict. -/
def state_dict_spec_loop : Dict String → List (String × String) → Dict String
  | acc, [] => acc
  | acc, (state_name, state_link) :: rest =>
      let state_details := base_url ++ state_link
      let acc2 :=
        if (dlookup acc (pyLower state_name)).isNone then
          dupdate acc (pyLower state_name) state_details
        else acc
      state_dict_spec_loop acc2 rest

/-- Modelled from the spec: state index with first-occurrence-wins insertion. -/
def build_state_url_dict_spec (links : List (String × String)) : Dict String :=
  state_dict_spec_loop [] links

/-- The whole build_state_url_dict operation with its network effect (source
lines 56-69): a direct GET of the index page, then the extraction adapter,
then the accumulation loop.  It does not consult the response cache. -/
def build_state_url_dict_run (net : String → String)
    (parseStateLinks : String → List (String × String)) :
    Dict String × List Effect :=
  let response_text := net base_url
  (build_state_url_dict (parseStateLinks response_text),
   [Effect.httpGet base_url])

/-- get_site_instance (source lines 71-118): fetch the detail page through
the cache, extract fields with the adapter, construct the site. -/
def get_site_instance_run (net : String → String)
    (parseDetail : String → ParsedDetail) (site_url : String)
    (cache : Dict String) : NationalSite × Dict String × List Effect :=
  let fetched := make_url_request_using_cache net site_url cache
  (siteOfParsed (parseDetail fetched.1), fetched.2.1, fetched.2.2)

/-- The per-park loop of get_sites_for_state (source lines 140-146),
threading the cache through the cache-backed detail fetches. -/
def sites_loop (net : String → String) (parseDetail : String → ParsedDetail) :
    List String → Dict String → List NationalSite × Dict String × List Effect
  | [], cache => ([], cache, [])
  | href :: rest, cache =>
      let url := base_url ++ href
      let one := get_site_instance_run net parseDetail url cache
      let more := sites_loop net parseDetail rest one.2.1
      (one.1 :: more.1, more.2.1, one.2.2 ++ more.2.2)

/-- get_sites_for_state (source lines 121-147): a direct GET of the state
page (not routed through the cache), then the park-link extraction adapter,
then one cache-backed site-detail fetch per park. -/
def get_sites_for_state_run (net : String → String)
    (parseParkLinks : String → List String)
    (parseDetail : String → ParsedDetail) (cache : Dict String)
    (state_url : String) : List NationalSite × Dict String × List Effect :=
  let text := net state_url
  let looped := sites_loop net parseDetail (parseParkLinks text) cache
  (looped.1, looped.2.1, Effect.httpGet state_url :: looped.2.2)

/-- The MapQuest radius-search request URL get_nearby_places issues (source
lines 164-171), with its fixed query parameters and the supplied key. -/
def nearby_request_url (key : String) (zipcode : String) : String :=
  "http://www.mapquestapi.com/search/v2/radius" ++ "?origin=" ++ zipcode ++
    "&radius=10&maxMatches=10&ambiguities=ignore&outFormat=json&key=" ++ key

/-- get_nearby_places (source lines 151-173): a direct GET of the places
API, not routed through the cache.  Returns the raw response text. -/
def get_nearby_places_run (net : String → String) (key : String)
    (site : NationalSite) : String × List Effect :=
  let u := nearby_request_url key site.zipcode
  (net u, [Effect.httpGet u])

/-- The fields object of one element of the searchResults list of the
places API response (source lines 292-305). -/
structure PlaceFields : Type where
  group_sic_code_name : String
  address : String
  city : String

/-- One element of the searchResults list. -/
structure SearchResult : Type where
  name : String
  fields : PlaceFields

/-- The rendering loop over searchResults (source lines 292-307).  The
print statement on line 307 is indented inside the else branch of the
city test, so an element whose city field is empty produces no output line
even though the variable city was just set to the default text. -/
def render_search_results : List SearchResult → List String
  | [] => []
  | place :: rest =>
      let category :=
        if place.fields.group_sic_code_name = "" then "no category"
        else place.fields.group_sic_code_name
      let address :=
        if place.fields.address = "" then "no address" else place.fields.address
      let lines :=
        if place.fields.city = "" then []
        else
          ["- " ++ place.name ++ " (" ++ category ++ "): " ++ address ++ ", " ++
            place.fields.city]
      lines ++ render_search_results rest

/-- The numbered menu site_dict built from the fetched site list (source
lines 267-272): keys are the decimal strings "1", "2", ... -/
def site_dict_loop : Nat → List NationalSite → Dict NationalSite
  | _, [] => []
  | i, s :: rest => (toString i, s) :: site_dict_loop (i + 1) rest

/-- The site_dict for a displayed list, numbered from 1. -/
def site_dict (sites : List NationalSite) : Dict NationalSite :=
  site_dict_loop 1 sites

/-- The navigation states of the interactive session (source lines 249-313):
the outer state-name prompt, the inner numbered-list prompt with its cursor,
and the terminated process. -/
inductive SessState : Type where
  | stateSelect : SessState
  | siteList : List NationalSite → SessState
  | exited : SessState
deriving DecidableEq

/-- One prompt-response step of the interactive session.  stateIndex is the
freshly built state dict and sitesFor the site list fetched for a state URL.
At the outer prompt (lines 252-259): exit terminates, a matching state name
enters the inner list, anything else stays.  At the inner prompt (lines
274-309): back returns to the outer prompt, exit terminates, a valid index
renders the detail view and stays at the same list, and invalid input
reports an error and stays. -/
def session_step (stateIndex : Dict String) (sitesFor : String → List NationalSite) :
    SessState → String → SessState
  | SessState.stateSelect, inp =>
      if pyLower inp = "exit" then SessState.exited
      else
        match dlookup stateIndex (pyLower inp) with
        | some url => SessState.siteList (sitesFor url)
        | none => SessState.stateSelect
  | SessState.siteList sites, inp =>
      let n := pyLower inp
      if n = "back" then SessState.stateSelect
      else if n = "exit" then SessState.exited
      else
        match dlookup (site_dict sites) n with
        | some _ => SessState.siteList sites
        | none => SessState.siteList sites
  | SessState.exited, _ => SessState.exited

/- Association-list dictionary lemmas. -/

theorem dlookup_dupdate_self {α : Type} (d : Dict α) (k : String) (v : α) :
    dlookup (dupdate d k v) k = some v := by
  induction d with
  | nil => simp [dupdate, dlookup]
  | cons p d ih =>
    obtain ⟨k0, v0⟩ := p
    by_cases h : k0 = k
    · simp [dupdate, h, dlookup]
    · simp [dupdate, h, dlookup, ih]

theorem dupdate_mem {α : Type} (d : Dict α) (k : String) (v : α)
    (p : String × α) (hp : p ∈ dupdate d k v) : p.1 = k ∨ p ∈ d := by
  induction d with
  | nil =>
    simp [dupdate] at hp
    subst hp
    exact Or.inl rfl
  | cons q d ih =>
    obtain ⟨k0, v0⟩ := q
    by_cases h : k0 = k
    · simp only [dupdate, if_pos h, List.mem_cons] at hp
      rcases hp with hp | hp
      · exact Or.inl (by rw [hp, h])
      · exact Or.inr (List.mem_cons_of_mem _ hp)
    · simp only [dupdate, if_neg h, List.mem_cons] at hp
      rcases hp with hp | hp
      · exact Or.inr (by simp [hp])
      · rcases ih hp with h1 | h1
        · exact Or.inl h1
        · exact Or.inr (List.mem_cons_of_mem _ h1)

/- JSON codec correctness: parsing inverts serialization. -/

theorem hexVal_hexDigitChar (n : Nat) (h : n < 16) :
    hexVal (hexDigitChar n) = some n := by
  interval_cases n <;> decide

theorem parseStringBody_escape (cs : List Char) :
    ∀ (fuel : Nat) (r : List Char), cs.length < fuel →
      parseStringBody fuel (escape cs ++ '"' :: r) = some (cs, r) := by
  induction cs with
  | nil =>
    intro fuel r h
    match fuel with
    | fuel + 1 => simp [escape, parseStringBody]
  | cons c cs ih =>
    intro fuel r h
    match fuel with
    | fuel + 1 =>
      have hfuel : cs.length < fuel := by
        have := Nat.lt_of_succ_lt_succ (by simpa using h)
        simpa using this
      by_cases h1 : c = '"'
      · subst h1
        simp [escape, escChar, parseStringBody, mapConsFst, ih fuel r hfuel]
      · by_cases h2 : c = '\\'
        · subst h2
          simp [escape, escChar, parseStringBody, mapConsFst, ih fuel r hfuel]
        · by_cases h3 : c.toNat < 32
          · have hdiv : c.toNat / 16 < 16 := by omega
            have hmod : c.toNat % 16 < 16 := by omega
            have hval :
                ((0 * 16 + 0) * 16 + c.toNat / 16) * 16 + c.toNat % 16 = c.toNat := by
              omega
            simp only [escape, escChar, if_neg h1, if_neg h2, if_pos h3,
              List.cons_append, List.append_assoc, parseStringBody]
            norm_num
            simp only [show hexVal '0' = some 0 from by decide,
              hexVal_hexDigitChar _ hdiv, hexVal_hexDigitChar _ hmod]
            rw [hval, Char.ofNat_toNat, ih fuel r hfuel]
            rfl
          · simp only [escape, escChar, if_neg h1, if_neg h2, if_neg h3,
              List.cons_append, List.nil_append, parseStringBody,
              if_neg h1, if_neg h2]
            rw [ih fuel r hfuel]
            rfl

theorem parseJString_escape (s : String) (fuel : Nat) (r : List Char)
    (h : s.data.length < fuel) :
    parseJString fuel ('"' :: (escape s.data ++ '"' :: r)) = some (s, r) := by
  obtain ⟨cs⟩ := s
  simp [parseJString, parseStringBody_escape cs fuel r h]

theorem skipWs_sp (l : List Char) : skipWs (' ' :: l) = skipWs l := by
  simp [skipWs, isJsonWs]

theorem parseEntry_entryChars (k v : String) (fuel : Nat) (r : List Char)
    (hk : k.data.length < fuel) (hv : v.data.length < fuel) :
    parseEntry fuel (entryChars k v ++ r) = some ((k, v), r) := by
  have h1 : entryChars k v ++ r =
      '"' :: (escape k.data ++ '"' :: (':' :: ' ' :: '"' :: (escape v.data ++ '"' :: r))) := by
    simp [entryChars]
  rw [h1]
  simp only [parseEntry,
    show skipWs ('"' :: (escape k.data ++ '"' :: (':' :: ' ' :: '"' :: (escape v.data ++ '"' :: r)))) =
      '"' :: (escape k.data ++ '"' :: (':' :: ' ' :: '"' :: (escape v.data ++ '"' :: r))) from by
        simp [skipWs, isJsonWs],
    parseJString_escape k fuel _ hk,
    show skipWs (':' :: ' ' :: '"' :: (escape v.data ++ '"' :: r)) =
      ':' :: ' ' :: '"' :: (escape v.data ++ '"' :: r) from by simp [skipWs, isJsonWs],
    skipWs_sp,
    show skipWs ('"' :: (escape v.data ++ '"' :: r)) = '"' :: (escape v.data ++ '"' :: r) from by
      simp [skipWs, isJsonWs],
    parseJString_escape v fuel _ hv]

theorem parseEntry_sp (fuel : Nat) (l : List Char) :
    parseEntry fuel (' ' :: l) = parseEntry fuel l := by
  rw [parseEntry, parseEntry, skipWs_sp]

theorem parseMembers_sp (fuel : Nat) (l : List Char) :
    parseMembers fuel (' ' :: l) = parseMembers fuel l := by
  match fuel with
  | 0 => rfl
  | fuel + 1 => rw [parseMembers, parseMembers, parseEntry_sp]

theorem parseMembers_join (m : Dict String) :
    ∀ (fuel : Nat) (r : List Char), m ≠ [] → sizeL m ≤ fuel →
      parseMembers fuel (joinEntries m ++ '\x7d' :: r) = some (m, r) := by
  induction m with
  | nil => intro fuel r hne; exact absurd rfl hne
  | cons kv m ih =>
    intro fuel r _ hsz
    obtain ⟨k, v⟩ := kv
    have hge : 1 ≤ fuel := by
      have h0 : 1 ≤ sizeL ((k, v) :: m) := by simp only [sizeL]; omega
      omega
    match fuel, hge with
    | fuel + 1, _ =>
      have hk : k.data.length < fuel + 1 := by
        have h0 := hsz; simp only [sizeL] at h0; omega
      have hv : v.data.length < fuel + 1 := by
        have h0 := hsz; simp only [sizeL] at h0; omega
      cases m with
      | nil =>
        rw [show joinEntries [(k, v)] ++ '\x7d' :: r =
              entryChars k v ++ '\x7d' :: r from by simp [joinEntries]]
        simp only [parseMembers, parseEntry_entryChars k v (fuel + 1) _ hk hv,
          show skipWs ('\x7d' :: r) = '\x7d' :: r from by simp [skipWs, isJsonWs]]
      | cons kv2 m2 =>
        rw [show joinEntries ((k, v) :: kv2 :: m2) ++ '\x7d' :: r =
              entryChars k v ++ ',' :: ' ' :: (joinEntries (kv2 :: m2) ++ '\x7d' :: r)
            from by simp [joinEntries]]
        have hsz2 : sizeL (kv2 :: m2) ≤ fuel := by
          have h0 := hsz; simp only [sizeL] at h0 ⊢; omega
        simp only [parseMembers, parseEntry_entryChars k v (fuel + 1) _ hk hv,
          show skipWs (',' :: ' ' :: (joinEntries (kv2 :: m2) ++ '\x7d' :: r)) =
            ',' :: ' ' :: (joinEntries (kv2 :: m2) ++ '\x7d' :: r) from by
              simp [skipWs, isJsonWs],
          parseMembers_sp, ih fuel r (by simp) hsz2]

theorem escape_length_ge (cs : List Char) : cs.length ≤ (escape cs).length := by
  induction cs with
  | nil => simp [escape]
  | cons c cs ih =>
    have h1 : 1 ≤ (escChar c).length := by
      unfold escChar; split_ifs <;> simp
    simp only [escape, List.length_append, List.length_cons]
    omega

theorem sizeL_le_joinLen (m : Dict String) (h : m ≠ []) :
    sizeL m ≤ (joinEntries m).length := by
  induction m with
  | nil => exact absurd rfl h
  | cons kv m ih =>
    obtain ⟨k, v⟩ := kv
    have hek := escape_length_ge k.data
    have hev := escape_length_ge v.data
    cases m with
    | nil =>
      simp only [joinEntries, entryChars, sizeL, List.length_cons,
        List.length_append, List.length_nil]
      omega
    | cons kv2 m2 =>
      have ih2 := ih (by simp)
      simp only [joinEntries, entryChars, sizeL, List.length_cons,
        List.length_append, List.length_nil] at ih2 ⊢
      omega

theorem expectChar_cons_self (c : Char) (l : List Char) (h : isJsonWs c = false) :
    expectChar c (c :: l) = some l := by
  simp [expectChar, skipWs, h]

theorem expectChar_cons_ne (c x : Char) (l : List Char)
    (hws : isJsonWs x = false) (hne : x ≠ c) : expectChar c (x :: l) = none := by
  simp [expectChar, skipWs, hws, hne]

theorem loads_dumps (m : Dict String) : loads (dumps m) = some m := by
  cases m with
  | nil => decide
  | cons kv m2 =>
    obtain ⟨k, v⟩ := kv
    have hdata : (dumps ((k, v) :: m2)).data =
        '\x7b' :: (joinEntries ((k, v) :: m2) ++ ['\x7d']) := rfl
    have hhead : ∃ t, joinEntries ((k, v) :: m2) = '"' :: t := by
      cases m2 with
      | nil =>
        exact ⟨escape k.data ++ '"' :: ':' :: ' ' :: '"' :: (escape v.data ++ ['"']),
          by simp [joinEntries, entryChars]⟩
      | cons kv2 m3 =>
        exact ⟨escape k.data ++ '"' :: ':' :: ' ' :: '"' ::
            (escape v.data ++ '"' :: ',' :: ' ' :: joinEntries (kv2 :: m3)),
          by simp [joinEntries, entryChars]⟩
    obtain ⟨t, ht⟩ := hhead
    have hexp : expectChar '\x7d' (joinEntries ((k, v) :: m2) ++ ['\x7d']) = none := by
      rw [ht, List.cons_append]
      exact expectChar_cons_ne _ _ _ (by decide) (by decide)
    have hpm : parseMembers ((joinEntries ((k, v) :: m2) ++ ['\x7d']).length + 1)
        (joinEntries ((k, v) :: m2) ++ ['\x7d']) = some ((k, v) :: m2, []) := by
      apply parseMembers_join ((k, v) :: m2) _ [] (by simp)
      have h1 := sizeL_le_joinLen ((k, v) :: m2) (by simp)
      simp only [List.length_append, List.length_singleton]
      omega
    unfold loads
    rw [hdata, expectChar_cons_self '\x7b' _ (by decide)]
    simp only [hexp, hpm, skipWs, List.isEmpty_nil, if_true]

/- State-index construction lemmas. -/

theorem state_dict_loop_eq_spec (links : List (String × String)) :
    ∀ acc : Dict String, (∀ p ∈ links, pyLower p.1 = p.1) →
      state_dict_loop acc links = state_dict_spec_loop acc links := by
  induction links with
  | nil => intro acc _; rfl
  | cons q links ih =>
    intro acc h
    obtain ⟨n, u⟩ := q
    have hn : pyLower n = n := h (n, u) (List.mem_cons_self _ _)
    simp only [state_dict_loop, state_dict_spec_loop, hn]
    exact ih _ fun p hp => h p (List.mem_cons_of_mem _ hp)

theorem state_dict_loop_keys (links : List (String × String)) :
    ∀ (acc : Dict String) (p : String × String), p ∈ state_dict_loop acc links →
      p ∈ acc ∨ ∃ q ∈ links, p.1 = pyLower q.1 := by
  induction links with
  | nil =>
    intro acc p hp
    exact Or.inl hp
  | cons q links ih =>
    intro acc p hp
    obtain ⟨n, u⟩ := q
    simp only [state_dict_loop] at hp
    rcases ih _ p hp with h1 | h2
    · by_cases hg : (dlookup acc n).isNone
      · rw [if_pos hg] at h1
        rcases dupdate_mem acc (pyLower n) (base_url ++ u) p h1 with h3 | h3
        · exact Or.inr ⟨(n, u), List.mem_cons_self _ _, h3⟩
        · exact Or.inl h3
      · rw [if_neg hg] at h1
        exact Or.inl h1
    · obtain ⟨q, hq, hq2⟩ := h2
      exact Or.inr ⟨q, List.mem_cons_of_mem _ hq, hq2⟩

/- Claim theorems. -/

/-- C1: Fetch memoization.  If the URL is a key of the cache, the fetch
returns the stored body and performs neither an HTTP GET nor a cache-file
write; if it is not, the fetch performs one HTTP GET, stores the body under
the URL, persists the whole mapping via save_cache, returns the body, and
any subsequent fetch of the same URL (under any network state net2) returns
the identical body with no network effect. -/
theorem fetch_memoization (net net2 : String → String) (url : String)
    (cache : Dict String) :
    (∀ body, dlookup cache url = some body →
      make_url_request_using_cache net url cache =
        (body, cache, [Effect.printLine "Using cache"])) ∧
    (dlookup cache url = none →
      make_url_request_using_cache net url cache =
        (net url, dupdate cache url (net url),
          [Effect.printLine "Fetching", Effect.httpGet url,
           Effect.fileWrite (save_cache (dupdate cache url (net url)))]) ∧
      dlookup (dupdate cache url (net url)) url = some (net url) ∧
      make_url_request_using_cache net2 url (dupdate cache url (net url)) =
        (net url, dupdate cache url (net url),
          [Effect.printLine "Using cache"])) := by
  constructor
  · intro body h
    simp [make_url_request_using_cache, h]
  · intro h
    have h2 := dlookup_dupdate_self cache url (net url)
    refine ⟨?_, h2, ?_⟩
    · simp [make_url_request_using_cache, h]
    · simp [make_url_request_using_cache, h2]

/-- Witness for C1 at a concrete cached URL. -/
theorem fetch_memoization_witness :
    make_url_request_using_cache (fun _ => "LIVE") "https://x/a"
        [("https://x/a", "B")] =
      ("B", [("https://x/a", "B")], [Effect.printLine "Using cache"]) :=
  (fetch_memoization (fun _ => "LIVE") (fun _ => "LIVE2") "https://x/a"
    [("https://x/a", "B")]).1 "B" (by decide)

/-- C2 counterexample: the state-listing fetch is issued directly even when
the state URL is already in the cache, and the state-index and nearby-places
fetches are likewise direct GETs, so not every outbound fetch is mediated by
the cache-backed fetch operation. -/
theorem direct_fetch_counterexample :
    dlookup [("https://x/state", "B")] "https://x/state" = some "B" ∧
    Effect.httpGet "https://x/state" ∈
      (get_sites_for_state_run (fun _ => "LIVE") (fun _ => [])
        (fun _ => ⟨"n", "c", "ci", "st", "z", "p"⟩)
        [("https://x/state", "B")] "https://x/state").2.2 ∧
    Effect.httpGet base_url ∈
      (build_state_url_dict_run (fun _ => "LIVE") (fun _ => [])).2 ∧
    Effect.httpGet (nearby_request_url "K" "49931") ∈
      (get_nearby_places_run (fun _ => "LIVE") "K"
        ⟨"c", "n", "a", "49931", "p"⟩).2 := by
  refine ⟨by decide, ?_, ?_, ?_⟩
  · simp [get_sites_for_state_run, sites_loop]
  · simp [build_state_url_dict_run]
  · simp [get_nearby_places_run]

/-- C2 amended: only site-detail page fetches are mediated by the response
cache (a cache hit produces no HTTP GET); the state-index page fetch, each
state-listing page fetch, and the nearby-places API call issue direct HTTP
GETs that appear in the trace unconditionally, bypassing the cache. -/
theorem fetch_mediation_amended (net : String → String)
    (pd : String → ParsedDetail) (url : String) (cache : Dict String)
    (body : String) (h : dlookup cache url = some body) :
    (∀ u, Effect.httpGet u ∉ (get_site_instance_run net pd url cache).2.2) ∧
    (∀ parseLinks, Effect.httpGet base_url ∈
      (build_state_url_dict_run net parseLinks).2) ∧
    (∀ parseParks cache2 state_url, Effect.httpGet state_url ∈
      (get_sites_for_state_run net parseParks pd cache2 state_url).2.2) ∧
    (∀ key site, Effect.httpGet (nearby_request_url key site.zipcode) ∈
      (get_nearby_places_run net key site).2) := by
  refine ⟨?_, ?_, ?_, ?_⟩
  · intro u
    simp [get_site_instance_run, make_url_request_using_cache, h]
  · intro parseLinks
    simp [build_state_url_dict_run]
  · intro parseParks cache2 state_url
    simp [get_sites_for_state_run]
  · intro key site
    simp [get_nearby_places_run]

/-- Witness for the amended C2 at a concrete cached site URL. -/
theorem fetch_mediation_amended_witness :
    Effect.httpGet "https://x/site" ∉
      (get_site_instance_run (fun _ => "LIVE")
        (fun _ => ⟨"n", "c", "ci", "st", "z", "p"⟩) "https://x/site"
        [("https://x/site", "B")]).2.2 :=
  (fetch_mediation_amended (fun _ => "LIVE")
    (fun _ => ⟨"n", "c", "ci", "st", "z", "p"⟩) "https://x/site"
    [("https://x/site", "B")] "B" (by decide)).1 "https://x/site"

/-- C3 counterexample: two state links with the same name Michigan and
different targets leave the URL of the second occurrence in the mapping,
because the duplicate guard tests the raw name against lower-cased keys. -/
theorem state_index_duplicate_counterexample :
    build_state_url_dict [("Michigan", "/a"), ("Michigan", "/b")] =
      [("michigan", "https://www.nps.gov/b")] ∧
    ("https://www.nps.gov/b" : String) ≠ "https://www.nps.gov/a" := by
  exact ⟨by decide, by decide⟩

/-- C3 amended: the mapping keys are the lower-cased state names, and the
first occurrence wins on duplicates only when every parsed state name is
already lower-case (then the construction agrees with the spec-modelled
first-occurrence-wins construction); a duplicate name containing an
upper-case letter overwrites the earlier URL instead. -/
theorem state_index_amended (links : List (String × String)) :
    (∀ p ∈ build_state_url_dict links, ∃ q ∈ links, p.1 = pyLower q.1) ∧
    ((∀ p ∈ links, pyLower p.1 = p.1) →
      build_state_url_dict links = build_state_url_dict_spec links) := by
  constructor
  · intro p hp
    rcases state_dict_loop_keys links [] p hp with h1 | h2
    · cases h1
    · exact h2
  · intro h
    exact state_dict_loop_eq_spec links [] h

/-- Witness for the amended C3: on all-lower-case duplicate links the code
agrees with the first-occurrence-wins construction. -/
theorem state_index_amended_witness :
    build_state_url_dict [("michigan", "/a"), ("michigan", "/b")] =
      build_state_url_dict_spec [("michigan", "/a"), ("michigan", "/b")] :=
  (state_index_amended [("michigan", "/a"), ("michigan", "/b")]).2 (by decide)

/-- C4 counterexample: a parsed detail page with an empty city and state MI
yields address ", MI", not the empty string the claim requires. -/
theorem site_address_counterexample :
    (siteOfParsed ⟨"Isle Royale", "", "", "MI", "49931", ""⟩).address = ", MI" ∧
    (", MI" : String) ≠ "" := by
  exact ⟨rfl, by decide⟩

/-- C4 amended: the category is the parsed text when nonempty and the text
no category otherwise, so it is never empty; but the address is always the
concatenation of city and state around a comma-space, because the None
checks in the source always succeed on parsed strings, so an empty city or
state does not force an empty address. -/
theorem site_defaulting_amended (d : ParsedDetail) :
    (siteOfParsed d).category =
      (if d.category = "" then "no category" else d.category) ∧
    (siteOfParsed d).category ≠ "" ∧
    (siteOfParsed d).address = d.city ++ ", " ++ d.state := by
  by_cases h : d.category = ""
  · refine ⟨by simp [siteOfParsed, h], by simp [siteOfParsed, h], rfl⟩
  · refine ⟨by simp [siteOfParsed, h], by simp [siteOfParsed, h], rfl⟩

/-- Witness for the amended C4 at a concrete parsed page. -/
theorem site_defaulting_amended_witness :
    (siteOfParsed ⟨"Isle Royale", "", "Houghton", "MI", "49931", ""⟩).category =
      "no category" ∧
    (siteOfParsed ⟨"Isle Royale", "", "Houghton", "MI", "49931", ""⟩).address =
      "Houghton, MI" := by
  have h := site_defaulting_amended ⟨"Isle Royale", "", "Houghton", "MI", "49931", ""⟩
  refine ⟨?_, ?_⟩
  · rw [h.1]; decide
  · rw [h.2.2]; decide

/-- C5: the places-rendering loop at the failing input.  An element whose
city field is empty produces no output line at all (the print on source
line 307 sits inside the else branch of the city test), although the claim
and the dead assignment of the text no city require the entry
"- Cafe (Restaurant): 1 Main St, no city"; an element with a nonempty city
is rendered with the category and address defaults as claimed. -/
theorem nearby_rendering_failing_input :
    render_search_results [⟨"Cafe", ⟨"Restaurant", "1 Main St", ""⟩⟩] = [] ∧
    render_search_results [⟨"Cafe", ⟨"", "", "Ann Arbor"⟩⟩] =
      ["- Cafe (no category): no address, Ann Arbor"] := by
  exact ⟨by decide, by decide⟩

/-- C6: Navigation safety.  From the numbered site list, any sequence of
inputs that are neither back nor exit (case-insensitively) leaves the
session at the same list with its cursor, back then returns to state
selection, and exit ends the session from either prompt. -/
theorem navigation_safety (stateIndex : Dict String)
    (sitesFor : String → List NationalSite) (sites : List NationalSite)
    (inputs : List String)
    (h : ∀ i ∈ inputs, pyLower i ≠ "back" ∧ pyLower i ≠ "exit") :
    List.foldl (session_step stateIndex sitesFor) (SessState.siteList sites)
      inputs = SessState.siteList sites ∧
    session_step stateIndex sitesFor
      (List.foldl (session_step stateIndex sitesFor)
        (SessState.siteList sites) inputs) "back" = SessState.stateSelect ∧
    (∀ i, pyLower i = "exit" →
      session_step stateIndex sitesFor SessState.stateSelect i =
        SessState.exited ∧
      session_step stateIndex sitesFor (SessState.siteList sites) i =
        SessState.exited) := by
  have hstep : ∀ (s : List NationalSite) (i : String),
      pyLower i ≠ "back" → pyLower i ≠ "exit" →
      session_step stateIndex sitesFor (SessState.siteList s) i =
        SessState.siteList s := by
    intro s i h1 h2
    simp only [session_step, if_neg h1, if_neg h2]
    cases dlookup (site_dict s) (pyLower i) <;> rfl
  have hfold : ∀ ins : List String,
      (∀ i ∈ ins, pyLower i ≠ "back" ∧ pyLower i ≠ "exit") →
      List.foldl (session_step stateIndex sitesFor) (SessState.siteList sites)
        ins = SessState.siteList sites := by
    intro ins
    induction ins with
    | nil => intro _; rfl
    | cons i ins ih =>
      intro hh
      have hi := hh i (List.mem_cons_self _ _)
      simp only [List.foldl_cons, hstep sites i hi.1 hi.2]
      exact ih fun j hj => hh j (List.mem_cons_of_mem _ hj)
  have hback : pyLower "back" = "back" := by decide
  refine ⟨hfold inputs h, ?_, ?_⟩
  · rw [hfold inputs h]
    simp [session_step, hback]
  · intro i hi
    constructor
    · simp [session_step, hi]
    · simp [session_step, hi]

/-- Witness for C6 with two drill-down selections. -/
theorem navigation_safety_witness :
    List.foldl (session_step [] fun _ => []) (SessState.siteList []) ["1", "7"] =
      SessState.siteList [] ∧
    session_step [] (fun _ => [])
      (List.foldl (session_step [] fun _ => []) (SessState.siteList []) ["1", "7"])
      "back" = SessState.stateSelect := by
  have h := navigation_safety [] (fun _ => []) [] ["1", "7"] (by decide)
  exact ⟨h.1, h.2.1⟩

/-- C7: Cache-load robustness.  A missing or unreadable file and an
unparsable document both load as the empty mapping; a document that parses
as a flat string object loads as that mapping. -/
theorem load_cache_robust :
    load_cache none = [] ∧
    (∀ s, loads s = none → load_cache (some s) = []) ∧
    (∀ s m, loads s = some m → load_cache (some s) = m) := by
  refine ⟨rfl, ?_, ?_⟩
  · intro s h
    simp [load_cache, h]
  · intro s m h
    simp [load_cache, h]

/-- Witness for C7 on a missing file, a malformed document and a
well-formed document. -/
theorem load_cache_robust_witness :
    load_cache none = [] ∧
    load_cache (some "nonsense") = [] ∧
    load_cache (some "\x7b\"a\": \"b\"\x7d") = [("a", "b")] :=
  ⟨load_cache_robust.1, load_cache_robust.2.1 _ (by decide),
   load_cache_robust.2.2 _ _ (by decide)⟩

/-- C8: Cache persistence round-trip.  Saving any mapping and loading it
back reconstructs the mapping, and saving what was loaded from any
parsable document leaves the logical content of the document unchanged. -/
theorem cache_round_trip (cache : Dict String) :
    loads (save_cache cache) = some cache ∧
    load_cache (some (save_cache cache)) = cache ∧
    (∀ s m, loads s = some m →
      loads (save_cache (load_cache (some s))) = some m) := by
  have h1 : loads (save_cache cache) = some cache := loads_dumps cache
  refine ⟨h1, by simp [load_cache, h1], ?_⟩
  intro s m h
  have h2 : load_cache (some s) = m := by simp [load_cache, h]
  rw [h2]
  exact loads_dumps m

/-- Witness for C8 on a concrete mapping and document. -/
theorem cache_round_trip_witness :
    loads (save_cache [("u", "B")]) = some [("u", "B")] ∧
    loads (save_cache (load_cache (some "\x7b\"a\": \"b\"\x7d"))) =
      some [("a", "b")] :=
  ⟨(cache_round_trip [("u", "B")]).1,
   (cache_round_trip []).2.2 _ _ (by decide)⟩

/-- C9 counterexample: a detail page whose title text is empty produces a
site whose name is the empty string; no constructibility check exists. -/
theorem site_name_counterexample :
    (siteOfParsed ⟨"", "National Park", "Houghton", "MI", "49931", "tel"⟩).name =
      "" := rfl

/-- C9 amended: the site name is the parsed title text verbatim, with no
validation anywhere, so it is nonempty exactly when the parsed title text
is nonempty. -/
theorem site_name_passthrough (d : ParsedDetail) :
    (siteOfParsed d).name = d.name := rfl

/-- C10: Cache-hit frame property.  For a URL present in the cache the
fetch leaves the cache mapping unchanged and writes nothing to the cache
file: the whole result is the stored body, the unchanged mapping and a
single console message. -/
theorem cache_hit_frame (net : String → String) (url : String)
    (cache : Dict String) (body : String)
    (h : dlookup cache url = some body) :
    (make_url_request_using_cache net url cache).2.1 = cache ∧
    (∀ doc, Effect.fileWrite doc ∉
      (make_url_request_using_cache net url cache).2.2) ∧
    make_url_request_using_cache net url cache =
      (body, cache, [Effect.printLine "Using cache"]) := by
  refine ⟨?_, ?_, ?_⟩ <;> simp [make_url_request_using_cache, h]

/-- Witness for C10 at a concrete cached URL. -/
theorem cache_hit_frame_witness :
    (make_url_request_using_cache (fun _ => "LIVE") "u" [("u", "B")]).2.1 =
      [("u", "B")] ∧
    ∀ doc, Effect.fileWrite doc ∉
      (make_url_request_using_cache (fun _ => "LIVE") "u" [("u", "B")]).2.2 := by
  have h := cache_hit_frame (fun _ => "LIVE") "u" [("u", "B")] "B" (by decide)
  exact ⟨h.1, h.2.1⟩

end NPS
